import Mathlib

/-!
# Verification of the x402-image-seller payment verification engine

This file is a shallow embedding, in Lean 4, of the payment verification and
replay-prevention engine of the `x402-image-seller` repository
(`src/paymentVerifier.ts`, class `PaymentVerifier`; the repository contains a
Redis-backed and a file-backed variant with identical verification logic).

Modelling conventions:
* The external ledger (`provider.getTransactionReceipt`) is a parameter
  `fetch : String → FetchResult`; a thrown transport error is `FetchResult.err`,
  a `null` receipt is `FetchResult.ok none`.
* A receipt log is an address plus an optional decoded event
  (`parseLog` throwing, or returning `null`, is `Option.none`;
  a non-Transfer event is `ParsedLog.other`).
* The JS in-memory `Set<string>` and the backing store (Redis set of key
  `processed_txs` / lines of `processed_txs.txt`) are lists of strings with
  set-like insert and remove.
* `parseFloat(ethers.formatUnits(value, 6))` is modelled exactly as the
  rational `value / 10^6`; the policy price `priceInUSDC` is a rational.
* Each external side effect (ledger fetch, backing-store add, backing-store
  remove) is recorded in an effect trace, so that claims of the form
  "no ledger call is made" are expressible.
-/

namespace X402

/-- A decoded log entry, result of `usdcContract.interface.parseLog`:
either a `Transfer(from, to, value)` event or some other event name. -/
inductive ParsedLog where
  | transfer (sender toAddr : String) (value : Nat)
  | other (name : String)
deriving DecidableEq, Repr

/-- One receipt log entry: the emitting contract address and the decode
outcome (`none` when `parseLog` throws or returns `null`). -/
structure Log where
  address : String
  parsed : Option ParsedLog
deriving DecidableEq, Repr

/-- A transaction receipt: `status` (1 = succeeded), block number and logs. -/
structure Receipt where
  status : Nat
  blockNumber : Nat
  logs : List Log
deriving DecidableEq, Repr

/-- Outcome of `provider.getTransactionReceipt`: a receipt, `null`
(`ok none`), or a thrown transport/decoding error (`err`). -/
inductive FetchResult where
  | ok (receipt : Option Receipt)
  | err (msg : String)
deriving DecidableEq, Repr

/-- The six rejection kinds of `verifyPayment`, one per `return` site with
`valid: false` (the source returns distinct message strings). -/
inductive Reason where
  | alreadyUsed
  | notFoundOrPending
  | transactionFailed
  | recipientMismatch
  | insufficientAmount
  | verificationError
deriving DecidableEq, Repr

/-- The structured result `{valid, amount?, error?}` of `verifyPayment`. -/
structure VerifyResult where
  valid : Bool
  amount : Option ℚ := none
  error : Option Reason := none
deriving DecidableEq, Repr

/-- An external side effect performed by the verifier: a ledger receipt
fetch, a backing-store add (`redis.sadd` / file append), or a backing-store
removal (`redis.srem` / file rewrite). -/
inductive Eff where
  | fetchReceipt (ref : String)
  | storeAdd (ref : String)
  | storeRemove (ref : String)
deriving DecidableEq, Repr

/-- The state of a `PaymentVerifier` instance: the configuration fields set
in the constructor, the in-memory `processedTxs : Set<string>`, and the
contents of the backing store (Redis set / file lines). -/
structure Verifier where
  walletAddress : String
  priceInUSDC : ℚ
  usdcAddress : String
  processedTxs : List String
  store : List String
deriving DecidableEq, Repr

/-- JS `Set.add`: inserting an already-present element is a no-op. -/
def insertSet (l : List String) (x : String) : List String :=
  if x ∈ l then l else x :: l

/-- JS `Set.delete` / `redis.srem`: remove the element if present. -/
def removeSet (l : List String) (x : String) : List String :=
  l.filter (fun tx => tx ≠ x)

/-- `ethers.formatUnits(value, decimals)` followed by `parseFloat`, modelled
exactly: the rational `value / 10^decimals`. -/
def formatUnits (value : Nat) (decimals : Nat) : ℚ :=
  (value : ℚ) / (10 : ℚ) ^ decimals

/-- The `for (const log of receipt.logs)` scan of `verifyPayment`:
skip logs not emitted by the USDC contract (addresses compared lower-cased),
skip logs that fail to decode or decode to a non-Transfer event, and `break`
at the first Transfer whose lower-cased recipient equals `walletAddress`
(which the constructor stores lower-cased), returning its converted amount
`parseFloat(ethers.formatUnits(value, 6))`. -/
def findTransfer (usdcAddress walletAddress : String) : List Log → Option ℚ
  | [] => none
  | log :: rest =>
    if log.address.toLower ≠ usdcAddress.toLower then
      findTransfer usdcAddress walletAddress rest
    else
      match log.parsed with
      | some (ParsedLog.transfer _ toAddr value) =>
        if toAddr.toLower = walletAddress then some (formatUnits value 6)
        else findTransfer usdcAddress walletAddress rest
      | _ => findTransfer usdcAddress walletAddress rest

/-- `PaymentVerifier.verifyPayment(txHash)`. Returns the structured result,
the post-call verifier state, and the trace of external effects performed.

Mirrors the source line by line: lower-case the hash; reject `AlreadyUsed`
on the in-memory set without touching the ledger; fetch the receipt (a
thrown transport error is caught by the surrounding `try` and returned as a
`VerificationError` result); reject a `null` receipt (`NotFoundOrPending`)
and a non-1 status (`TransactionFailed`); scan the logs for the first
qualifying transfer (`RecipientMismatch` when none); reject below-price
amounts (`InsufficientAmount`, amount still reported); otherwise add the
lower-cased hash to the in-memory set, mirror it to the backing store and
return `{valid: true, amount}`. -/
def verifyPayment (st : Verifier) (fetch : String → FetchResult) (txHash : String) :
    VerifyResult × Verifier × List Eff :=
  let lowerCaseTxHash := txHash.toLower
  if lowerCaseTxHash ∈ st.processedTxs then
    ({ valid := false, error := some Reason.alreadyUsed }, st, [])
  else
    match fetch txHash with
    | FetchResult.err _ =>
      ({ valid := false, error := some Reason.verificationError }, st,
       [Eff.fetchReceipt txHash])
    | FetchResult.ok none =>
      ({ valid := false, error := some Reason.notFoundOrPending }, st,
       [Eff.fetchReceipt txHash])
    | FetchResult.ok (some receipt) =>
      if receipt.status ≠ 1 then
        ({ valid := false, error := some Reason.transactionFailed }, st,
         [Eff.fetchReceipt txHash])
      else
        match findTransfer st.usdcAddress st.walletAddress receipt.logs with
        | none =>
          ({ valid := false, error := some Reason.recipientMismatch }, st,
           [Eff.fetchReceipt txHash])
        | some transferAmount =>
          if transferAmount < st.priceInUSDC then
            ({ valid := false, amount := some transferAmount,
               error := some Reason.insufficientAmount }, st,
             [Eff.fetchReceipt txHash])
          else
            ({ valid := true, amount := some transferAmount },
             { st with
                processedTxs := insertSet st.processedTxs lowerCaseTxHash,
                store := insertSet st.store lowerCaseTxHash },
             [Eff.fetchReceipt txHash, Eff.storeAdd lowerCaseTxHash])

/-- `PaymentVerifier.removeProcessedTx(txHash)` (the rollback path):
lower-case the hash; if the in-memory `Set.delete` succeeds, also remove it
from the backing store; otherwise do nothing at all. -/
def removeProcessedTx (st : Verifier) (txHash : String) : Verifier × List Eff :=
  let lowerCaseTxHash := txHash.toLower
  if lowerCaseTxHash ∈ st.processedTxs then
    ({ st with
        processedTxs := removeSet st.processedTxs lowerCaseTxHash,
        store := removeSet st.store lowerCaseTxHash },
     [Eff.storeRemove lowerCaseTxHash])
  else (st, [])

/-- The `PaymentVerifier` constructor: the wallet address is stored
lower-cased; the in-memory set starts empty (it is then populated from the
backing store by `initialize`/`loadProcessedTxs`, modelled by the `store`
argument being loaded verbatim). -/
def mkVerifier (usdcContractAddress walletAddress : String) (priceInUSDC : ℚ)
    (loaded : List String) : Verifier :=
  { walletAddress := walletAddress.toLower
    priceInUSDC := priceInUSDC
    usdcAddress := usdcContractAddress
    processedTxs := loaded
    store := loaded }

/-- `PaymentVerifier.getProcessedTxCount()`. -/
def getProcessedTxCount (st : Verifier) : Nat :=
  st.processedTxs.length

/-- A log entry qualifies when it is emitted by the configured token
contract (addresses compared lower-cased), decodes as a `Transfer` event,
and its lower-cased recipient equals the stored wallet address: exactly the
conditions under which the scan of `verifyPayment` stops. -/
def qualifying (usdcAddress walletAddress : String) (log : Log) : Prop :=
  log.address.toLower = usdcAddress.toLower ∧
  ∃ sender toAddr value,
    log.parsed = some (ParsedLog.transfer sender toAddr value) ∧
    toAddr.toLower = walletAddress

/-! ## Concrete fixtures

Small concrete receipts, states and ledgers used to instantiate the
theorems below at explicit inputs. -/

/-- A USDC `Transfer` log to the expected wallet with raw value `v`. -/
def goodLog (v : Nat) : Log :=
  { address := "0xUsdc", parsed := some (ParsedLog.transfer "0xsender" "0xWallet" v) }

/-- A succeeded receipt with a single qualifying transfer of raw value `v`. -/
def goodReceipt (v : Nat) : Receipt :=
  { status := 1, blockNumber := 100, logs := [goodLog v] }

/-- A failed receipt (status 0) that nevertheless contains a decodable
qualifying transfer of raw value `v`. -/
def failedReceipt (v : Nat) : Receipt :=
  { status := 0, blockNumber := 100, logs := [goodLog v] }

/-- A succeeded receipt with two qualifying transfers, raw values `50000`
then `500000`, in that log order. -/
def twoTransferReceipt : Receipt :=
  { status := 1, blockNumber := 100, logs := [goodLog 50000, goodLog 500000] }

/-- A fresh verifier charging 0.10 USDC to wallet `0xWallet`. -/
def stA : Verifier := mkVerifier "0xusdc" "0xWallet" (1 / 10) []

/-- A ledger that answers every query with receipt `r`. -/
def fetchOk (r : Receipt) : String → FetchResult :=
  fun _ => FetchResult.ok (some r)

/-- A ledger whose transport always fails (the RPC call throws). -/
def fetchErr : String → FetchResult :=
  fun _ => FetchResult.err "network error"

/-- A verifier that has already accepted reference `0xabc`. -/
def stUsed : Verifier :=
  { stA with processedTxs := ["0xabc"], store := ["0xabc"] }

/-- A verifier whose backing store holds `0xdef` but whose in-memory set
does not (for example after a failed startup load). -/
def stOrphan : Verifier :=
  { stA with store := ["0xdef"] }

/-! ## Helper lemmas -/

/-- `String.toLower` as a plain map over the character list. -/
theorem toLower_eq (s : String) : s.toLower = ⟨s.data.map Char.toLower⟩ := by
  rw [String.toLower, String.map_eq]

/-- `Char.toLower` is idempotent: lowering moves `A`–`Z` into `a`–`z`,
which the guard then leaves untouched. -/
theorem char_toLower_idem (c : Char) : c.toLower.toLower = c.toLower := by
  by_cases h : c.toNat ≥ 65 ∧ c.toNat ≤ 90
  · have h1 : c.toLower = Char.ofNat (c.toNat + 32) := by
      unfold Char.toLower
      exact if_pos h
    have hv : Nat.isValidChar (c.toNat + 32) := Or.inl (by omega)
    have ht : (Char.ofNat (c.toNat + 32)).toNat = c.toNat + 32 := by
      unfold Char.ofNat
      rw [dif_pos hv]
      rfl
    have hcond : ¬((Char.ofNat (c.toNat + 32)).toNat ≥ 65 ∧
        (Char.ofNat (c.toNat + 32)).toNat ≤ 90) := by
      rw [ht]; omega
    rw [h1]
    unfold Char.toLower
    exact if_neg hcond
  · have h1 : c.toLower = c := by
      unfold Char.toLower
      exact if_neg h
    rw [h1, h1]

/-- `String.toLower` is idempotent. -/
theorem string_toLower_idem (s : String) : s.toLower.toLower = s.toLower := by
  rw [toLower_eq s, toLower_eq]
  simp only [List.map_map]
  exact congrArg String.mk (List.map_congr_left fun c _ => char_toLower_idem c)

/-- The element just inserted is a member of the set. -/
theorem mem_insertSet_self (l : List String) (x : String) : x ∈ insertSet l x := by
  unfold insertSet
  split
  · assumption
  · exact List.mem_cons_self x l

/-- Removing a freshly inserted, previously absent element restores the set. -/
theorem removeSet_insertSet (l : List String) (x : String) (h : x ∉ l) :
    removeSet (insertSet l x) x = l := by
  unfold insertSet removeSet
  rw [if_neg h]
  have hx : ∀ a ∈ l, a ≠ x := fun a ha hax => h (hax ▸ ha)
  simp only [List.filter_cons]
  simp only [ne_eq, not_true_eq_false, decide_False, if_false]
  exact List.filter_eq_self.mpr (fun a ha => by simpa using hx a ha)

/-- The log scan returns the converted amount of the first qualifying
transfer: every log before it is skipped, everything after it is ignored. -/
theorem findTransfer_first (usdcAddress walletAddress : String)
    (pre suf : List Log) (log : Log) (sender toAddr : String) (value : Nat)
    (hpre : ∀ l ∈ pre, ¬ qualifying usdcAddress walletAddress l)
    (haddr : log.address.toLower = usdcAddress.toLower)
    (hparsed : log.parsed = some (ParsedLog.transfer sender toAddr value))
    (hto : toAddr.toLower = walletAddress) :
    findTransfer usdcAddress walletAddress (pre ++ log :: suf) =
      some (formatUnits value 6) := by
  induction pre with
  | nil =>
    simp only [List.nil_append, findTransfer, haddr, hparsed, hto]
    simp
  | cons p pre ih =>
    have hp : ¬ qualifying usdcAddress walletAddress p :=
      hpre p (List.mem_cons_self p pre)
    have ihp := ih (fun l hl => hpre l (List.mem_cons_of_mem p hl))
    simp only [List.cons_append, findTransfer]
    by_cases ha : p.address.toLower = usdcAddress.toLower
    · rw [if_neg (by simp [ha])]
      cases hp2 : p.parsed with
      | none => exact ihp
      | some pl =>
        cases pl with
        | transfer s t v =>
          have htw : ¬ t.toLower = walletAddress :=
            fun he => hp ⟨ha, s, t, v, hp2, he⟩
          simpa [htw] using ihp
        | other n => exact ihp
    · rw [if_pos (by simp [ha])]
      exact ihp

/-- Inversion of an accepted verification: the reference was fresh, the
ledger returned a succeeded receipt with a first qualifying transfer of
sufficient amount, and the call's full outcome is the acceptance tuple. -/
theorem verify_valid_inv (st : Verifier) (fetch : String → FetchResult) (txHash : String)
    (h : (verifyPayment st fetch txHash).1.valid = true) :
    txHash.toLower ∉ st.processedTxs ∧
    ∃ receipt amt,
      fetch txHash = FetchResult.ok (some receipt) ∧
      receipt.status = 1 ∧
      findTransfer st.usdcAddress st.walletAddress receipt.logs = some amt ∧
      ¬ amt < st.priceInUSDC ∧
      verifyPayment st fetch txHash =
        ({ valid := true, amount := some amt, error := none },
         { st with
            processedTxs := insertSet st.processedTxs txHash.toLower,
            store := insertSet st.store txHash.toLower },
         [Eff.fetchReceipt txHash, Eff.storeAdd txHash.toLower]) := by
  by_cases hmem : txHash.toLower ∈ st.processedTxs
  · simp [verifyPayment, hmem] at h
  · refine ⟨hmem, ?_⟩
    cases hf : fetch txHash with
    | err m => simp [verifyPayment, hmem, hf] at h
    | ok o =>
      cases o with
      | none => simp [verifyPayment, hmem, hf] at h
      | some receipt =>
        by_cases hs : receipt.status = 1
        · cases hfind : findTransfer st.usdcAddress st.walletAddress receipt.logs with
          | none => simp [verifyPayment, hmem, hf, hs, hfind] at h
          | some amt =>
            by_cases hlt : amt < st.priceInUSDC
            · simp [verifyPayment, hmem, hf, hs, hfind, hlt] at h
            · exact ⟨receipt, amt, rfl, hs, hfind, hlt, by
                simp [verifyPayment, hmem, hf, hs, hfind, hlt]⟩
        · simp [verifyPayment, hmem, hf, hs] at h

/-- Both projections of `verifyPayment` are unchanged when the transaction
hash is replaced by one with the same lower-casing and the same ledger
answer (only the effect trace records the original spelling). -/
theorem verify_eq_of_toLower_eq (st : Verifier) (fetch : String → FetchResult)
    (t1 t2 : String) (hl : t1.toLower = t2.toLower) (hf : fetch t1 = fetch t2) :
    (verifyPayment st fetch t1).1 = (verifyPayment st fetch t2).1 ∧
    (verifyPayment st fetch t1).2.1 = (verifyPayment st fetch t2).2.1 := by
  by_cases hmem : t2.toLower ∈ st.processedTxs
  · simp [verifyPayment, hl, hf, hmem]
  · cases hfr : fetch t2 with
    | err m => simp [verifyPayment, hl, hf, hfr, hmem]
    | ok o =>
      cases o with
      | none => simp [verifyPayment, hl, hf, hfr, hmem]
      | some receipt =>
        by_cases hs : receipt.status = 1
        · cases hfind : findTransfer st.usdcAddress st.walletAddress receipt.logs with
          | none => simp [verifyPayment, hl, hf, hfr, hmem, hs, hfind]
          | some amt =>
            by_cases hlt : amt < st.priceInUSDC <;>
              simp [verifyPayment, hl, hf, hfr, hmem, hs, hfind, hlt]
        · simp [verifyPayment, hl, hf, hfr, hmem, hs]

/-- Concrete evaluation: a fresh verifier accepts reference `0xAbC` against
a ledger holding a succeeded receipt with one 0.10 USDC transfer. -/
theorem stA_accept_eval :
    (verifyPayment stA (fetchOk (goodReceipt 100000)) "0xAbC").1.valid = true := by
  have h1 : ("0xAbC".toLower) = "0xabc" := by rw [toLower_eq]; decide
  have h2 : ("0xUsdc".toLower) = "0xusdc" := by rw [toLower_eq]; decide
  have h3 : ("0xusdc".toLower) = "0xusdc" := by rw [toLower_eq]; decide
  norm_num [verifyPayment, stA, mkVerifier, fetchOk, goodReceipt, goodLog,
    findTransfer, formatUnits, h1, h2, h3]

/-! ## Claims -/

/-- C1: with the ledger reporting the same valid qualifying transfer on
both calls (one `fetch` function), after a first `verify(r)` that returned
`valid=true`, the second `verify(r)` returns `valid=false` with reason
`AlreadyUsed`, performs no external effect at all (in particular no ledger
fetch: the in-memory ProcessedSet lookup alone decides it), and leaves the
state unchanged. -/
theorem replay_second_verify_rejected_in_memory (st : Verifier)
    (fetch : String → FetchResult) (txHash : String)
    (h : (verifyPayment st fetch txHash).1.valid = true) :
    (verifyPayment (verifyPayment st fetch txHash).2.1 fetch txHash).1 =
      { valid := false, amount := none, error := some Reason.alreadyUsed } ∧
    (verifyPayment (verifyPayment st fetch txHash).2.1 fetch txHash).2.2 = [] ∧
    (verifyPayment (verifyPayment st fetch txHash).2.1 fetch txHash).2.1 =
      (verifyPayment st fetch txHash).2.1 := by
  obtain ⟨hmem, receipt, amt, hf, hs, hfind, hlt, heq⟩ := verify_valid_inv st fetch txHash h
  rw [heq]
  have hmem2 : txHash.toLower ∈ insertSet st.processedTxs txHash.toLower :=
    mem_insertSet_self _ _
  simp [verifyPayment, hmem2]

/-- Witness for C1 at a concrete input: the first call accepts, the second
call is rejected as already used with an empty effect trace. -/
theorem replay_second_verify_rejected_in_memory_witness :
    (verifyPayment stA (fetchOk (goodReceipt 100000)) "0xAbC").1.valid = true ∧
    (verifyPayment (verifyPayment stA (fetchOk (goodReceipt 100000)) "0xAbC").2.1
        (fetchOk (goodReceipt 100000)) "0xAbC").1 =
      { valid := false, amount := none, error := some Reason.alreadyUsed } ∧
    (verifyPayment (verifyPayment stA (fetchOk (goodReceipt 100000)) "0xAbC").2.1
        (fetchOk (goodReceipt 100000)) "0xAbC").2.2 = [] :=
  ⟨stA_accept_eval,
   (replay_second_verify_rejected_in_memory stA (fetchOk (goodReceipt 100000)) "0xAbC"
      stA_accept_eval).1,
   (replay_second_verify_rejected_in_memory stA (fetchOk (goodReceipt 100000)) "0xAbC"
      stA_accept_eval).2.1⟩

/-- C2: after an accepted `verify(r)`, calling `rollback(r)` and then
`verify(r)` again against the same ledger data yields the same accepting
result: rollback removes `r` from the ProcessedSet, so the
verify-rollback-verify sequence round-trips to acceptance. -/
theorem rollback_then_verify_accepts_again (st : Verifier)
    (fetch : String → FetchResult) (txHash : String)
    (h : (verifyPayment st fetch txHash).1.valid = true) :
    (verifyPayment (removeProcessedTx (verifyPayment st fetch txHash).2.1 txHash).1
        fetch txHash).1 = (verifyPayment st fetch txHash).1 ∧
    (verifyPayment (removeProcessedTx (verifyPayment st fetch txHash).2.1 txHash).1
        fetch txHash).1.valid = true := by
  obtain ⟨hmem, receipt, amt, hf, hs, hfind, hlt, heq⟩ := verify_valid_inv st fetch txHash h
  have hrm : (removeProcessedTx
      ({ st with
          processedTxs := insertSet st.processedTxs txHash.toLower,
          store := insertSet st.store txHash.toLower } : Verifier) txHash).1 =
      { st with store := removeSet (insertSet st.store txHash.toLower) txHash.toLower } := by
    simp [removeProcessedTx, mem_insertSet_self,
      removeSet_insertSet st.processedTxs txHash.toLower hmem]
  rw [heq]
  simp only [hrm]
  simp [verifyPayment, hmem, hf, hs, hfind, hlt]

/-- Witness for C2 at a concrete input: accept, roll back, accept again. -/
theorem rollback_then_verify_accepts_again_witness :
    (verifyPayment stA (fetchOk (goodReceipt 100000)) "0xAbC").1.valid = true ∧
    (verifyPayment
        (removeProcessedTx
          (verifyPayment stA (fetchOk (goodReceipt 100000)) "0xAbC").2.1 "0xAbC").1
        (fetchOk (goodReceipt 100000)) "0xAbC").1.valid = true :=
  ⟨stA_accept_eval,
   (rollback_then_verify_accepts_again stA (fetchOk (goodReceipt 100000)) "0xAbC"
      stA_accept_eval).2⟩

/-- C3: on a succeeded receipt, `verify` reports the amount of the FIRST
log-order transfer emitted by the token contract that decodes as a
`Transfer` to the expected recipient; every earlier log is non-qualifying
and every later log is ignored, whatever it contains. -/
theorem verify_selects_first_qualifying_transfer (st : Verifier)
    (fetch : String → FetchResult) (txHash : String) (receipt : Receipt)
    (pre suf : List Log) (log : Log) (sender toAddr : String) (value : Nat)
    (hmem : txHash.toLower ∉ st.processedTxs)
    (hf : fetch txHash = FetchResult.ok (some receipt))
    (hs : receipt.status = 1)
    (hlogs : receipt.logs = pre ++ log :: suf)
    (hpre : ∀ l ∈ pre, ¬ qualifying st.usdcAddress st.walletAddress l)
    (haddr : log.address.toLower = st.usdcAddress.toLower)
    (hparsed : log.parsed = some (ParsedLog.transfer sender toAddr value))
    (hto : toAddr.toLower = st.walletAddress) :
    (verifyPayment st fetch txHash).1.amount = some (formatUnits value 6) := by
  have hfind : findTransfer st.usdcAddress st.walletAddress receipt.logs =
      some (formatUnits value 6) := by
    rw [hlogs]
    exact findTransfer_first _ _ _ _ _ _ _ _ hpre haddr hparsed hto
  by_cases hlt : formatUnits value 6 < st.priceInUSDC <;>
    simp [verifyPayment, hmem, hf, hs, hfind, hlt]

/-- Witness for C3: a receipt with two qualifying transfers, raw values
`50000` then `500000`; the reported amount is that of the first, exactly
0.05, not 0.5. -/
theorem verify_selects_first_qualifying_transfer_witness :
    (verifyPayment stA (fetchOk twoTransferReceipt) "0xabc").1.amount =
      some (formatUnits 50000 6) ∧
    formatUnits 50000 6 = 0.05 := by
  have haddr : ("0xUsdc".toLower) = "0xusdc".toLower := by
    rw [toLower_eq, toLower_eq]; decide
  refine ⟨verify_selects_first_qualifying_transfer stA (fetchOk twoTransferReceipt)
      "0xabc" twoTransferReceipt [] [goodLog 500000] (goodLog 50000)
      "0xsender" "0xWallet" 50000 (by simp [stA, mkVerifier]) rfl rfl rfl
      (by simp) (by simpa [goodLog, stA, mkVerifier] using haddr) rfl rfl, ?_⟩
  norm_num [formatUnits]

/-- C4: every rejected `verify` call (any rejection kind) leaves the
verifier state — the in-memory ProcessedSet and the backing store — exactly
as it was, and its effect trace contains at most the ledger fetch: the
acceptance step is the only mutation `verify` ever performs. -/
theorem verify_rejection_leaves_state_unchanged (st : Verifier)
    (fetch : String → FetchResult) (txHash : String)
    (h : (verifyPayment st fetch txHash).1.valid = false) :
    (verifyPayment st fetch txHash).2.1 = st ∧
    ((verifyPayment st fetch txHash).2.2 = [] ∨
     (verifyPayment st fetch txHash).2.2 = [Eff.fetchReceipt txHash]) := by
  by_cases hmem : txHash.toLower ∈ st.processedTxs
  · simp [verifyPayment, hmem]
  · cases hf : fetch txHash with
    | err m => simp [verifyPayment, hmem, hf]
    | ok o =>
      cases o with
      | none => simp [verifyPayment, hmem, hf]
      | some receipt =>
        by_cases hs : receipt.status = 1
        · cases hfind : findTransfer st.usdcAddress st.walletAddress receipt.logs with
          | none => simp [verifyPayment, hmem, hf, hs, hfind]
          | some amt =>
            by_cases hlt : amt < st.priceInUSDC
            · simp [verifyPayment, hmem, hf, hs, hfind, hlt]
            · exfalso
              simp [verifyPayment, hmem, hf, hs, hfind, hlt] at h
        · simp [verifyPayment, hmem, hf, hs]

/-- Witness for C4: a replayed reference is rejected and the state is
untouched. -/
theorem verify_rejection_leaves_state_unchanged_witness :
    (verifyPayment stUsed (fetchOk (goodReceipt 100000)) "0xABC").1.valid = false ∧
    (verifyPayment stUsed (fetchOk (goodReceipt 100000)) "0xABC").2.1 = stUsed := by
  have h1 : ("0xABC".toLower) = "0xabc" := by rw [toLower_eq]; decide
  have h : (verifyPayment stUsed (fetchOk (goodReceipt 100000)) "0xABC").1.valid = false := by
    simp [verifyPayment, stUsed, stA, mkVerifier, h1]
  exact ⟨h, (verify_rejection_leaves_state_unchanged stUsed
    (fetchOk (goodReceipt 100000)) "0xABC" h).1⟩

/-- C5: `verify` is total and returns a structured result: every rejection
carries a reason, every acceptance carries an amount and no reason, and a
ledger transport failure (the RPC call throwing) is recovered locally into
`valid=false` with reason `VerificationError` rather than propagated. -/
theorem verify_returns_structured_result_never_throws (st : Verifier)
    (fetch : String → FetchResult) (txHash : String) :
    ((verifyPayment st fetch txHash).1.valid = false →
      ∃ k, (verifyPayment st fetch txHash).1.error = some k) ∧
    ((verifyPayment st fetch txHash).1.valid = true →
      (verifyPayment st fetch txHash).1.error = none ∧
      ∃ a, (verifyPayment st fetch txHash).1.amount = some a) ∧
    (∀ msg, fetch txHash = FetchResult.err msg →
      txHash.toLower ∉ st.processedTxs →
      (verifyPayment st fetch txHash).1 =
        { valid := false, amount := none, error := some Reason.verificationError }) := by
  by_cases hmem : txHash.toLower ∈ st.processedTxs
  · simp [verifyPayment, hmem]
  · cases hf : fetch txHash with
    | err m => simp [verifyPayment, hmem, hf]
    | ok o =>
      cases o with
      | none => simp [verifyPayment, hmem, hf]
      | some receipt =>
        by_cases hs : receipt.status = 1
        · cases hfind : findTransfer st.usdcAddress st.walletAddress receipt.logs with
          | none => simp [verifyPayment, hmem, hf, hs, hfind]
          | some amt =>
            by_cases hlt : amt < st.priceInUSDC <;>
              simp [verifyPayment, hmem, hf, hs, hfind, hlt]
        · simp [verifyPayment, hmem, hf, hs]

/-- Witness for C5: a throwing ledger transport yields the structured
`VerificationError` rejection. -/
theorem verify_returns_structured_result_never_throws_witness :
    fetchErr "0xabc" = FetchResult.err "network error" ∧
    (verifyPayment stA fetchErr "0xabc").1 =
      { valid := false, amount := none, error := some Reason.verificationError } :=
  ⟨rfl,
   (verify_returns_structured_result_never_throws stA fetchErr "0xabc").2.2
     "network error" rfl (by simp [stA, mkVerifier])⟩

/-- C6: on a succeeded receipt whose selected qualifying transfer converts
to an amount strictly below the policy minimum, `verify` returns
`valid=false` with reason `InsufficientAmount` and with the amount field
still set to the observed converted amount. -/
theorem verify_insufficient_amount_reports_amount (st : Verifier)
    (fetch : String → FetchResult) (txHash : String) (receipt : Receipt) (amt : ℚ)
    (hmem : txHash.toLower ∉ st.processedTxs)
    (hf : fetch txHash = FetchResult.ok (some receipt))
    (hs : receipt.status = 1)
    (hfind : findTransfer st.usdcAddress st.walletAddress receipt.logs = some amt)
    (hlt : amt < st.priceInUSDC) :
    (verifyPayment st fetch txHash).1 =
      { valid := false, amount := some amt, error := some Reason.insufficientAmount } := by
  simp [verifyPayment, hmem, hf, hs, hfind, hlt]

/-- Witness for C6: a 0.099999 USDC transfer against a 0.10 USDC price is
rejected as insufficient with the observed amount reported. -/
theorem verify_insufficient_amount_reports_amount_witness :
    findTransfer stA.usdcAddress stA.walletAddress (goodReceipt 99999).logs =
      some (formatUnits 99999 6) ∧
    formatUnits 99999 6 < stA.priceInUSDC ∧
    (verifyPayment stA (fetchOk (goodReceipt 99999)) "0xabc").1 =
      { valid := false, amount := some (formatUnits 99999 6),
        error := some Reason.insufficientAmount } := by
  have h2 : ("0xUsdc".toLower) = "0xusdc" := by rw [toLower_eq]; decide
  have h3 : ("0xusdc".toLower) = "0xusdc" := by rw [toLower_eq]; decide
  have hfind : findTransfer stA.usdcAddress stA.walletAddress (goodReceipt 99999).logs =
      some (formatUnits 99999 6) := by
    simp [findTransfer, goodReceipt, goodLog, stA, mkVerifier, h2, h3]
  have hlt : formatUnits 99999 6 < stA.priceInUSDC := by
    norm_num [formatUnits, stA, mkVerifier]
  exact ⟨hfind, hlt,
    verify_insufficient_amount_reports_amount stA (fetchOk (goodReceipt 99999)) "0xabc"
      (goodReceipt 99999) (formatUnits 99999 6) (by simp [stA, mkVerifier]) rfl rfl
      hfind hlt⟩

/-- C7: provided the ledger answers the reference and its lower-casing
identically (transaction references are case-insensitive identifiers),
`verify(r)` returns the same result and state as `verify(lowercase(r))`,
and `rollback(r)` is exactly `rollback(lowercase(r))`: references are
canonicalized to lower-case before every ProcessedSet comparison, storage
and lookup. -/
theorem verify_and_rollback_case_insensitive (st : Verifier)
    (fetch : String → FetchResult) (txHash : String)
    (hfetch : fetch txHash = fetch txHash.toLower) :
    (verifyPayment st fetch txHash).1 = (verifyPayment st fetch txHash.toLower).1 ∧
    (verifyPayment st fetch txHash).2.1 = (verifyPayment st fetch txHash.toLower).2.1 ∧
    removeProcessedTx st txHash = removeProcessedTx st txHash.toLower := by
  have hl : txHash.toLower = txHash.toLower.toLower := (string_toLower_idem txHash).symm
  obtain ⟨h1, h2⟩ := verify_eq_of_toLower_eq st fetch txHash txHash.toLower hl hfetch
  refine ⟨h1, h2, ?_⟩
  simp only [removeProcessedTx]
  rw [string_toLower_idem txHash]

/-- Witness for C7: reference `0xAbC` against a case-blind ledger behaves
exactly like `0xabc`. -/
theorem verify_and_rollback_case_insensitive_witness :
    (verifyPayment stA (fetchOk (goodReceipt 100000)) "0xAbC").1 =
      (verifyPayment stA (fetchOk (goodReceipt 100000)) "0xAbC".toLower).1 ∧
    (verifyPayment stA (fetchOk (goodReceipt 100000)) "0xAbC").2.1 =
      (verifyPayment stA (fetchOk (goodReceipt 100000)) "0xAbC".toLower).2.1 ∧
    removeProcessedTx stA "0xAbC" = removeProcessedTx stA "0xAbC".toLower :=
  verify_and_rollback_case_insensitive stA (fetchOk (goodReceipt 100000)) "0xAbC" rfl

/-- C8: a receipt whose status is not 1 is rejected with
`TransactionFailed` regardless of its log contents: the status check
precedes any log examination. -/
theorem verify_failed_status_rejected_regardless_of_logs (st : Verifier)
    (fetch : String → FetchResult) (txHash : String) (receipt : Receipt)
    (hmem : txHash.toLower ∉ st.processedTxs)
    (hf : fetch txHash = FetchResult.ok (some receipt))
    (hs : receipt.status ≠ 1) :
    (verifyPayment st fetch txHash).1 =
      { valid := false, amount := none, error := some Reason.transactionFailed } := by
  simp [verifyPayment, hmem, hf, hs]

/-- Witness for C8: a failed receipt that even contains a decodable
qualifying transfer is still rejected with `TransactionFailed`. -/
theorem verify_failed_status_rejected_regardless_of_logs_witness :
    (failedReceipt 100000).status ≠ 1 ∧
    (failedReceipt 100000).logs = [goodLog 100000] ∧
    (verifyPayment stA (fetchOk (failedReceipt 100000)) "0xabc").1 =
      { valid := false, amount := none, error := some Reason.transactionFailed } :=
  ⟨by simp [failedReceipt], rfl,
   verify_failed_status_rejected_regardless_of_logs stA (fetchOk (failedReceipt 100000))
     "0xabc" (failedReceipt 100000) (by simp [stA, mkVerifier]) rfl
     (by simp [failedReceipt])⟩

/-- C9: amount conversion with 6 decimals is exact: every raw value
divisible by `10^6` converts to the exact integer quotient, raw `150000`
converts to exactly 0.15, and with policy minimum 0.10 a raw `100000`
transfer is accepted with amount exactly 0.10 while raw `99999` is
rejected as insufficient with amount exactly 0.099999. -/
theorem amount_conversion_exact_scenarios :
    (∀ k : Nat, formatUnits (k * 10 ^ 6) 6 = (k : ℚ)) ∧
    formatUnits 150000 6 = 0.15 ∧
    (verifyPayment stA (fetchOk (goodReceipt 100000)) "0xaaa").1 =
      { valid := true, amount := some 0.10, error := none } ∧
    (verifyPayment stA (fetchOk (goodReceipt 99999)) "0xbbb").1 =
      { valid := false, amount := some 0.099999,
        error := some Reason.insufficientAmount } := by
  have h2 : ("0xUsdc".toLower) = "0xusdc" := by rw [toLower_eq]; decide
  have h3 : ("0xusdc".toLower) = "0xusdc" := by rw [toLower_eq]; decide
  refine ⟨fun k => ?_, by norm_num [formatUnits], ?_, ?_⟩
  · field_simp [formatUnits]
  · norm_num [verifyPayment, stA, mkVerifier, fetchOk, goodReceipt, goodLog,
      findTransfer, formatUnits, h2, h3]
  · norm_num [verifyPayment, stA, mkVerifier, fetchOk, goodReceipt, goodLog,
      findTransfer, formatUnits, h2, h3]

/-- C10: rolling back a reference whose canonical form is not in the
in-memory ProcessedSet is a complete no-op: state (memory and backing
store) unchanged and no backing-store removal even attempted, because the
store removal is guarded by the success of the in-memory delete. -/
theorem rollback_absent_ref_noop (st : Verifier) (txHash : String)
    (h : txHash.toLower ∉ st.processedTxs) :
    removeProcessedTx st txHash = (st, []) := by
  simp [removeProcessedTx, h]

/-- Witness for C10: a reference present only in the backing store is not
removed by rollback — the call does nothing at all. -/
theorem rollback_absent_ref_noop_witness :
    ("0xdef".toLower) ∉ stOrphan.processedTxs ∧
    removeProcessedTx stOrphan "0xdef" = (stOrphan, []) ∧
    "0xdef" ∈ stOrphan.store := by
  have h : ("0xdef".toLower) ∉ stOrphan.processedTxs := by
    simp [stOrphan, stA, mkVerifier]
  exact ⟨h, rollback_absent_ref_noop stOrphan "0xdef" h, by simp [stOrphan]⟩

end X402
